import Mathlib

/-!
Verification development for the Gemini Live relay backend (src/main.py).

Python strings are modelled as `List Char` (`PyStr`); Python `str.lower`,
`in`, `split(kw, 1)`, `strip`, `startswith` and slicing are modelled by the
helpers below.  The MongoDB collection is modelled as a list of documents,
and the collection's `find(...).sort("created_at", -1).limit(n)` call by the
documented query semantics (filter, sort descending by creation time, take).
Fallible store calls take their underlying outcome as an explicit parameter
(`none` = the driver raised), mirroring the `try/except` blocks of the
source.
-/

namespace GeminiLive

/-- Python string model: a sequence of characters. -/
abbrev PyStr := List Char

/-- Python `s.lower()` (the source only lowercases ASCII trigger text). -/
def lowerStr (s : PyStr) : PyStr := s.map Char.toLower

/-- Suffix of `s` after the first occurrence of `kw`; `none` when `kw` does
not occur.  `some (afterFirst kw s)` is Python `s.split(kw, 1)[1]` when the
split produced two parts. -/
def afterFirst (kw : PyStr) : PyStr → Option PyStr
  | [] => if kw.isEmpty then some [] else none
  | c :: rest =>
    if kw.isPrefixOf (c :: rest) then some ((c :: rest).drop kw.length)
    else afterFirst kw rest

/-- Python `kw in hay`. -/
def containsSub (hay kw : PyStr) : Bool := (afterFirst kw hay).isSome

/-- Index of the first occurrence of `kw` in `s` (used by the spec-side
classifier, which speaks of occurrence positions rather than splits). -/
def idxOfSub (kw : PyStr) : PyStr → Option Nat
  | [] => if kw.isEmpty then some 0 else none
  | c :: rest =>
    if kw.isPrefixOf (c :: rest) then some 0
    else (idxOfSub kw rest).map (· + 1)

/-- Python `s.strip()`. -/
def pyStrip (s : PyStr) : PyStr :=
  ((s.dropWhile Char.isWhitespace).reverse.dropWhile Char.isWhitespace).reverse

/-- Python `s.lower().startswith(p)` for a lowercase pattern `p`. -/
def lowerStarts (s p : PyStr) : Bool := p.isPrefixOf (lowerStr s)

/-- The fixed ordered trigger list of `process_memory_request`. -/
def memory_keywords : List PyStr :=
  ["remember".toList, "memorize".toList, "save".toList, "store".toList,
   "keep in mind".toList, "don't forget".toList]

/-- The three sequential connector strips of `process_memory_request`
(lines 120-125 of src/main.py): each is an `if`, not an `elif`, each tests a
lowercased *prefix* (not a token boundary) and re-strips after slicing. -/
def stripLeadConnectors (s : PyStr) : PyStr :=
  let s1 := if lowerStarts s "that".toList then pyStrip (s.drop 4) else s
  let s2 := if lowerStarts s1 "this".toList then pyStrip (s1.drop 4) else s1
  if lowerStarts s2 "to".toList then pyStrip (s2.drop 2) else s2

/-- The payload extraction of `process_memory_request`: `memory_text` starts
as the whole text; the first keyword of the list contained in the lowered
text is looked up; the *original* text is split on that keyword
case-sensitively (`text.split(keyword, 1)`), and only when that split finds
the keyword is the suffix taken, stripped and connector-stripped. -/
def extract_memory_text (text : PyStr) : PyStr :=
  match memory_keywords.find? (fun kw => containsSub (lowerStr text) kw) with
  | none => text
  | some kw =>
    match afterFirst kw text with
    | none => text
    | some suffixPart => stripLeadConnectors (pyStrip suffixPart)

/-- Result dictionary of `save_memory`. -/
structure SaveResult where
  success : Bool
  message : PyStr
  memory_id : Option PyStr
deriving DecidableEq

/-- A document of the `memory` collection, as `save_memory` builds it. -/
structure MemoryDoc where
  session_id : PyStr
  memory_text : PyStr
  context : PyStr
  created_at : Nat
  updated_at : Nat
deriving DecidableEq

/-- The generic user-safe failure message of `save_memory`. -/
def save_fail_message : PyStr := "Sorry, I couldn't save that memory".toList

/-- The success message of `save_memory`. -/
def save_success_message (memory_text : PyStr) : PyStr :=
  "I've remembered: '".toList ++ memory_text ++ "'".toList

/-- Embedding of `save_memory` (src/main.py lines 54-79).  `outcome` is the
underlying `insert_one` outcome: `some id` when the driver returned a record
id, `none` when it raised (the `except` branch).  Besides the result
dictionary it returns the list of documents actually inserted. -/
def save_memory (outcome : Option PyStr) (session_id memory_text context : PyStr)
    (now : Nat) : SaveResult × List MemoryDoc :=
  match outcome with
  | some newId =>
    ({ success := true, message := save_success_message memory_text,
       memory_id := some newId },
     [{ session_id := session_id, memory_text := memory_text, context := context,
        created_at := now, updated_at := now }])
  | none =>
    ({ success := false, message := save_fail_message, memory_id := none }, [])

/-- The documents of the collection belonging to one session:
`find({"session_id": session_id})`. -/
def sessionRecords (store : List MemoryDoc) (sid : PyStr) : List MemoryDoc :=
  store.filter (fun d => d.session_id == sid)

/-- Recency order on documents: `moreRecent a b` holds when `a` was created
no earlier than `b` (so a list sorted by it is newest-first). -/
def moreRecent (a b : MemoryDoc) : Prop := b.created_at ≤ a.created_at

instance : DecidableRel moreRecent := fun a b => Nat.decLe b.created_at a.created_at

instance : IsTotal MemoryDoc moreRecent :=
  ⟨fun a b => (Nat.le_total a.created_at b.created_at).symm⟩

instance : IsTrans MemoryDoc moreRecent :=
  ⟨fun _ _ _ hab hbc => Nat.le_trans hbc hab⟩

/-- The collection sorted newest-first: `.sort("created_at", -1)`. -/
def newestFirst (l : List MemoryDoc) : List MemoryDoc :=
  List.insertionSort moreRecent l

/-- Embedding of `load_memories` (src/main.py lines 82-99).  `ok` is whether
the underlying query succeeded; the `except` branch returns `[]`.  The query
`find({"session_id": sid}).sort("created_at", -1).limit(limit)` is modelled
by its documented semantics: filter, sort descending by creation time,
truncate. -/
def load_memories (ok : Bool) (store : List MemoryDoc) (sid : PyStr)
    (limit : Nat) : List MemoryDoc :=
  if ok then (newestFirst (sessionRecords store sid)).take limit else []

/-- A write issued into the upstream Gemini session (`session.send`). -/
inductive UpEffect
  | sendText (msg : PyStr) (endOfTurn : Bool)
  | sendMedia (dataField mimeType : PyStr)
deriving DecidableEq

/-- What one call of `process_memory_request` returns and does: the returned
pair, the sends it issued into the session, and the documents it inserted. -/
structure ProcOut where
  isMemory : Bool
  payload : Option PyStr
  sends : List UpEffect
  inserted : List MemoryDoc
deriving DecidableEq

/-- The fixed banner prefixed to every save confirmation (line 132). -/
def save_banner : PyStr := "Memory saved successfully! ".toList

/-- Embedding of `process_memory_request` (src/main.py lines 102-136). -/
def process_memory_request (outcome : Option PyStr) (now : Nat)
    (session_id text : PyStr) : ProcOut :=
  if memory_keywords.any (fun kw => containsSub (lowerStr text) kw) then
    let memory_text := extract_memory_text text
    let result := save_memory outcome session_id memory_text text now
    { isMemory := true, payload := some memory_text,
      sends := [UpEffect.sendText (save_banner ++ result.1.message) true],
      inserted := result.2 }
  else
    { isMemory := false, payload := none, sends := [], inserted := [] }

/-- A parsed inbound JSON frame: which of the keys `text`, `data`,
`mime_type` are present, and their string values. -/
structure JsonObj where
  textField : Option PyStr
  dataField : Option PyStr
  mimeField : Option PyStr
deriving DecidableEq

/-- One message read from the websocket: either text that `json.loads`
rejects, or a parsed JSON object. -/
inductive ClientMsg
  | badJson
  | json (j : JsonObj)
deriving DecidableEq

/-- The effects of one parsed frame in `receive_from_client` (lines
189-206): a `text` key takes the memory path (and `continue`s, so `data` in
the same frame is never examined); otherwise `data` plus `mime_type` is
forwarded as realtime media; a frame with neither shape does nothing. -/
def frame_effects (outcome : Option PyStr) (now : Nat) (sid : PyStr)
    (j : JsonObj) : List UpEffect × List MemoryDoc :=
  match j.textField with
  | some user_text =>
    let r := process_memory_request outcome now sid user_text
    if r.isMemory then (r.sends, r.inserted)
    else (r.sends ++ [UpEffect.sendText user_text true], r.inserted)
  | none =>
    match j.dataField, j.mimeField with
    | some d, some m => ([UpEffect.sendMedia d m], [])
    | _, _ => ([], [])

/-- How the receive loop ended: the client disconnected (the
`WebSocketDisconnect` handler), or an exception such as a `json.loads`
failure reached the `except Exception` handler. -/
inductive LoopEnd
  | disconnect
  | errorEnd
deriving DecidableEq

/-- Embedding of the `receive_from_client` loop (src/main.py lines 182-211)
over a finite inbound message sequence followed by client disconnect.  A
message `json.loads` rejects raises, is caught by the outer
`except Exception`, and ends the loop: the remaining messages are never
read. -/
def receive_from_client (outcome : Option PyStr) (now : Nat) (sid : PyStr) :
    List ClientMsg → List UpEffect × List MemoryDoc × LoopEnd
  | [] => ([], [], LoopEnd.disconnect)
  | ClientMsg.badJson :: _ => ([], [], LoopEnd.errorEnd)
  | ClientMsg.json j :: rest =>
    let fe := frame_effects outcome now sid j
    let r := receive_from_client outcome now sid rest
    (fe.1 ++ r.1, fe.2 ++ r.2.1, r.2.2)

/-- The base system instruction of `DEFAULT_CONFIG`. -/
def default_system_instruction : PyStr :=
  "You are a helpful and friendly AI assistant.".toList

/-- One bullet of the memory block: `f"- {m['memory_text']}"`. -/
def memory_bullet (d : MemoryDoc) : PyStr := "- ".toList ++ d.memory_text

/-- Python `"\n".join`. -/
def joinNL : List PyStr → PyStr
  | [] => []
  | [x] => x
  | x :: y :: xs => x ++ '\n' :: joinNL (y :: xs)

/-- The appended memory block (line 157-158): header plus one bullet per
memory of `memories[:5]`. -/
def memory_context_block (memories : List MemoryDoc) : PyStr :=
  "Here are things I should remember:\n".toList ++
    joinNL ((memories.take 5).map memory_bullet)

/-- The `system_instruction` of the session configuration (lines 155-159):
unchanged when no memories were loaded, else the base instruction with the
memory block appended after a blank line.  (`response_modalities` and
`tools` of the config are constants the source never touches.) -/
def augmented_instruction (memories : List MemoryDoc) : PyStr :=
  if memories.isEmpty then default_system_instruction
  else default_system_instruction ++ "\n\n".toList ++ memory_context_block memories

/-- The instruction the gateway opens the upstream session with: memories
are loaded with `load_memories(session_id)` (limit 10) for the session id
generated at accept, and fed to the builder. -/
def session_config_instruction (loadOk : Bool) (store : List MemoryDoc)
    (sid : PyStr) : PyStr :=
  augmented_instruction (load_memories loadOk store sid 10)

/-- Inline binary payload of an upstream part (`part.inline_data`); `data`
may itself be absent. -/
structure InlineBlob where
  dataBytes : Option (List Nat)
deriving DecidableEq

/-- One part of an upstream model turn. -/
structure ResponsePart where
  inline_data : Option InlineBlob
  text : Option PyStr
deriving DecidableEq

/-- The `model_turn` envelope: an ordered part list. -/
structure ModelTurn where
  parts : List ResponsePart
deriving DecidableEq

/-- The `server_content` of one upstream response chunk. -/
structure ServerContent where
  model_turn : Option ModelTurn
  interrupted : Bool
deriving DecidableEq

/-- One response yielded while iterating a turn of `session.receive()`. -/
structure UpResponse where
  server_content : Option ServerContent
deriving DecidableEq

/-- The standard base64 alphabet. -/
def base64_alphabet : PyStr :=
  "ABCDEFGHIJKLMNOPQRSTUVWXYZabcdefghijklmnopqrstuvwxyz0123456789+/".toList

/-- Character of the base64 alphabet at a 6-bit index. -/
def b64char (n : Nat) : Char := base64_alphabet.getD n 'A'

/-- Standard base64 of a byte list, as `base64.b64encode(...).decode()`. -/
def b64encode : List Nat → PyStr
  | [] => []
  | [a] =>
    let a := a % 256
    [b64char (a / 4), b64char (a % 4 * 16), '=', '=']
  | [a, b] =>
    let a := a % 256
    let b := b % 256
    [b64char (a / 4), b64char (a % 4 * 16 + b / 16), b64char (b % 16 * 4), '=']
  | a :: b :: c :: rest =>
    let a := a % 256
    let b := b % 256
    let c := c % 256
    b64char (a / 4) :: b64char (a % 4 * 16 + b / 16) ::
      b64char (b % 16 * 4 + c / 64) :: b64char (c % 64) :: b64encode rest

/-- A frame written to the client websocket by `send_to_client`. -/
inductive OutFrame
  | audioFrame (b64 : PyStr)
  | textFrame (t : PyStr)
  | interruptedFrame
deriving DecidableEq

/-- Frames one part contributes (lines 220-233): an `{audio}` frame when
`part.inline_data` and its `data` are truthy (present and non-empty), then a
`{text}` frame when `part.text` is truthy (present and non-empty). -/
def part_frames (p : ResponsePart) : List OutFrame :=
  (match p.inline_data with
   | some blob =>
     match blob.dataBytes with
     | some bs => if bs.isEmpty then [] else [OutFrame.audioFrame (b64encode bs)]
     | none => []
   | none => []) ++
  (match p.text with
   | some t => if t.isEmpty then [] else [OutFrame.textFrame t]
   | none => [])

/-- The part list of one response: empty unless `response.server_content`
and its `model_turn` are present. -/
def response_parts (r : UpResponse) : List ResponsePart :=
  match r.server_content with
  | some sc =>
    match sc.model_turn with
    | some mt => mt.parts
    | none => []
  | none => []

/-- Whether `response.server_content and response.server_content.interrupted`
holds for one response. -/
def responseInterrupted (r : UpResponse) : Bool :=
  match r.server_content with
  | some sc => sc.interrupted
  | none => false

/-- The part frames of one response, in part order. -/
def response_part_frames (r : UpResponse) : List OutFrame :=
  ((response_parts r).map part_frames).flatten

/-- Frames emitted for one response (the body of the `async for` at lines
218-236): its part frames in order, then one `{interrupted: true}` frame
when the response's envelope is flagged interrupted. -/
def response_frames (r : UpResponse) : List OutFrame :=
  response_part_frames r ++
    (if responseInterrupted r then [OutFrame.interruptedFrame] else [])

/-- All frames emitted while iterating one turn of `session.receive()`:
responses are handled strictly in order. -/
def turn_frames (rs : List UpResponse) : List OutFrame :=
  (rs.map response_frames).flatten

/-- The part frames of a whole turn in part order, interruption frames left
out (the spec-side description of a turn's content frames). -/
def turn_part_frames (rs : List UpResponse) : List OutFrame :=
  (rs.map response_part_frames).flatten

/-- Spec-side reading of "the turn-level envelope signals interruption":
some response of the turn carries the interruption flag. -/
def turn_signals_interruption (rs : List UpResponse) : Bool :=
  rs.any responseInterrupted

/-- Frames of the whole outbound relay over a finite turn sequence
(`send_to_client`, lines 213-239): turns strictly sequential. -/
def send_to_client (turns : List (List UpResponse)) : List OutFrame :=
  (turns.map turn_frames).flatten

/-- The connector words of the spec's classifier contract. -/
def connector_words : List PyStr := ["that".toList, "this".toList, "to".toList]

/-- Whether `tok` is the leading word of `s` as a literal token: a prefix
(case-insensitively) followed by a word boundary. -/
def leadingToken (s tok : PyStr) : Bool :=
  tok.isPrefixOf (lowerStr s) &&
    (s.length == tok.length || ((s.getD tok.length ' ').isWhitespace))

/-- Removal of at most one leading connector word as a literal token,
with a re-trim, as the claimed classifier contract states it. -/
def stripOneConnector (s : PyStr) : PyStr :=
  match connector_words.find? (fun t => leadingToken s t) with
  | some t => pyStrip (s.drop t.length)
  | none => s

/-- The classifier as the claim states it (spec §4.4): on the first trigger
of the fixed list occurring case-insensitively in the text, take the portion
of the original text after the first occurrence of that trigger, trim it,
and strip at most one leading connector word as a literal token. -/
def classify_spec (text : PyStr) : Bool × Option PyStr :=
  match memory_keywords.find? (fun kw => containsSub (lowerStr text) kw) with
  | none => (false, none)
  | some kw =>
    match idxOfSub kw (lowerStr text) with
    | none => (false, none)
    | some i => (true, some (stripOneConnector (pyStrip (text.drop (i + kw.length)))))

/-- The classifier the code implements, phrased over occurrence positions:
the first trigger of the list that occurs in the lowered text is located in
the ORIGINAL text case-sensitively; when absent there (a case mismatch) the
payload is the whole untrimmed text, else the suffix after it, trimmed, with
the three connector prefixes stripped sequentially. -/
def classify_amended (text : PyStr) : Bool × Option PyStr :=
  match memory_keywords.find? (fun kw => containsSub (lowerStr text) kw) with
  | none => (false, none)
  | some kw =>
    match idxOfSub kw text with
    | none => (true, some text)
    | some i => (true, some (stripLeadConnectors (pyStrip (text.drop (i + kw.length)))))

/-- A memory document persisted during an earlier connection whose session
identity was `64f0aa01`. -/
def priorDoc : MemoryDoc :=
  { session_id := "64f0aa01".toList, memory_text := "user likes coffee".toList,
    context := "remember that user likes coffee".toList,
    created_at := 1, updated_at := 1 }

/-- The fresh session identity a later connection generates at accept (a new
ObjectId, never equal to an earlier one). -/
def freshSid : PyStr := "64f0bb02".toList

/-- A text of the claimed classifier contract's domain on which code and
contract part ways over connector stripping. -/
def c2_text : PyStr := "remember that this car".toList

/-- A well-formed inbound text frame carrying no memory trigger. -/
def c4_valid_frame : JsonObj :=
  { textField := some ("hello".toList), dataField := none, mimeField := none }

/-- An upstream response whose envelope is flagged interrupted and which
carries no model turn. -/
def interruptResponse : UpResponse :=
  { server_content := some { model_turn := none, interrupted := true } }

/-- An upstream response carrying one text part and no interruption. -/
def textPartResponse : UpResponse :=
  { server_content := some
      { model_turn := some { parts :=
          [{ inline_data := none, text := some ("hi there".toList) }] },
        interrupted := false } }

/-- C1: the spec says memories persisted under a conversation session in
earlier connections are re-injected into the context of future connections.
The gateway generates a fresh ObjectId at every accept, so the identity it
loads for never equals the identity any earlier record was saved under:
`load` returns nothing and the new session's configuration is the bare base
instruction, while loading under the old identity itself would have
augmented it. -/
theorem c1_fresh_session_never_reinjects :
    priorDoc.session_id ≠ freshSid ∧
    load_memories true [priorDoc] freshSid 10 = [] ∧
    session_config_instruction true [priorDoc] freshSid =
      default_system_instruction ∧
    session_config_instruction true [priorDoc] priorDoc.session_id ≠
      default_system_instruction := by
  decide

/-- C2 counterexample: on "remember that this car" the claimed contract
(split after the first trigger, trim, strip at most ONE leading connector
word) yields payload "this car", but the code strips connector prefixes
sequentially and returns "car". -/
theorem c2_counterexample_one_connector :
    classify_spec c2_text = (true, some ("this car".toList)) ∧
    (process_memory_request none 0 [] c2_text).isMemory = true ∧
    (process_memory_request none 0 [] c2_text).payload = some ("car".toList) ∧
    ("car".toList : PyStr) ≠ ("this car".toList : PyStr) := by
  decide

/-- C4 counterexample: a frame of unparseable JSON does not leave the loop
running — `json.loads` raises into the outer `except`, the loop ends with an
error, and a subsequent valid frame is never processed (alone, that frame
would have been forwarded). -/
theorem c4_counterexample_badjson_fatal :
    receive_from_client none 0 [] [ClientMsg.badJson, ClientMsg.json c4_valid_frame] =
      ([], [], LoopEnd.errorEnd) ∧
    receive_from_client none 0 [] [ClientMsg.json c4_valid_frame] =
      ([UpEffect.sendText ("hello".toList) true], [], LoopEnd.disconnect) := by
  decide

/-- C5 counterexample: a turn holding two responses each flagged interrupted
signals interruption, yet the relay emits TWO `{interrupted: true}` frames
for it, not exactly one — the flag is handled per response, not per turn. -/
theorem c5_counterexample_two_frames :
    turn_signals_interruption [interruptResponse, interruptResponse] = true ∧
    List.count OutFrame.interruptedFrame
      (turn_frames [interruptResponse, interruptResponse]) = 2 ∧
    List.count OutFrame.interruptedFrame
      (turn_frames [interruptResponse, interruptResponse]) ≠ 1 := by
  decide

/-- C7: the Memory Store Adapter never lets a store error escape: on an
underlying insert failure `save_memory` still returns a result, with
`success = false`, the generic user-safe message, no record identity and no
document inserted; on an underlying query failure `load_memories` returns
the empty list. -/
theorem c7_store_errors_never_escape (sid text ctx : PyStr) (now : Nat)
    (store : List MemoryDoc) (limit : Nat) :
    (save_memory none sid text ctx now).1.success = false ∧
    (save_memory none sid text ctx now).1.message = save_fail_message ∧
    (save_memory none sid text ctx now).1.memory_id = none ∧
    (save_memory none sid text ctx now).2 = [] ∧
    load_memories false store sid limit = [] :=
  ⟨rfl, rfl, rfl, rfl, rfl⟩

/-- C10: a frame carrying both a `text` key and a `data`/`mime_type` pair is
handled exactly like a pure text frame — the `continue` after the text
branch means the media payload of the same frame is never forwarded. -/
theorem c10_text_wins_media_dropped (outcome : Option PyStr) (now : Nat)
    (sid t d m : PyStr) :
    frame_effects outcome now sid
        { textField := some t, dataField := some d, mimeField := some m } =
      frame_effects outcome now sid
        { textField := some t, dataField := none, mimeField := none } ∧
    ∀ d2 m2 : PyStr, UpEffect.sendMedia d2 m2 ∉
      (frame_effects outcome now sid
        { textField := some t, dataField := some d, mimeField := some m }).1 := by
  refine ⟨rfl, ?_⟩
  intro d2 m2
  by_cases h : memory_keywords.any (fun kw => containsSub (lowerStr t) kw)
  · simp [frame_effects, process_memory_request, h]
  · simp [frame_effects, process_memory_request, h]

/-- C8: for a text containing no trigger phrase case-insensitively,
`process_memory_request` reports no memory intent with empty payload, sends
nothing and inserts nothing, and the relay forwards the original text
unmodified as an ordinary end-of-turn input. -/
theorem c8_no_trigger_forwarded_verbatim (outcome : Option PyStr) (now : Nat)
    (sid text : PyStr)
    (h : memory_keywords.any (fun kw => containsSub (lowerStr text) kw) = false) :
    process_memory_request outcome now sid text =
      { isMemory := false, payload := none, sends := [], inserted := [] } ∧
    frame_effects outcome now sid
        { textField := some text, dataField := none, mimeField := none } =
      ([UpEffect.sendText text true], []) := by
  have hp : process_memory_request outcome now sid text =
      { isMemory := false, payload := none, sends := [], inserted := [] } := by
    simp [process_memory_request, h]
  exact ⟨hp, by simp [frame_effects, hp]⟩

/-- C8 witness: a concrete trigger-free text is forwarded verbatim. -/
theorem c8_witness :
    process_memory_request none 0 [] ("What is the weather today?".toList) =
      { isMemory := false, payload := none, sends := [], inserted := [] } ∧
    frame_effects none 0 []
        { textField := some ("What is the weather today?".toList),
          dataField := none, mimeField := none } =
      ([UpEffect.sendText ("What is the weather today?".toList) true], []) :=
  c8_no_trigger_forwarded_verbatim none 0 [] ("What is the weather today?".toList)
    (by decide)

/-- C9: when the store insert fails for a memory-intent text, the message
sent into the upstream session still opens with the fixed success banner,
followed by the failure message; the call still reports a memory intent with
the extracted payload, and the raw request is not forwarded. -/
theorem c9_failed_save_still_banners (now : Nat) (sid text : PyStr)
    (h : memory_keywords.any (fun kw => containsSub (lowerStr text) kw) = true) :
    (process_memory_request none now sid text).isMemory = true ∧
    (process_memory_request none now sid text).payload =
      some (extract_memory_text text) ∧
    (process_memory_request none now sid text).sends =
      [UpEffect.sendText (save_banner ++ save_fail_message) true] ∧
    frame_effects none now sid
        { textField := some text, dataField := none, mimeField := none } =
      ([UpEffect.sendText (save_banner ++ save_fail_message) true], []) := by
  have hp : process_memory_request none now sid text =
      { isMemory := true, payload := some (extract_memory_text text),
        sends := [UpEffect.sendText (save_banner ++ save_fail_message) true],
        inserted := [] } := by
    simp [process_memory_request, h, save_memory]
  exact ⟨by rw [hp], by rw [hp], by rw [hp], by simp [frame_effects, hp]⟩

/-- C9 witness: on "remember that I like coffee" with a failing store, the
confirmation channel carries the banner glued to the failure message. -/
theorem c9_witness :
    (process_memory_request none 0 [] ("remember that I like coffee".toList)).isMemory = true ∧
    (process_memory_request none 0 [] ("remember that I like coffee".toList)).payload =
      some (extract_memory_text ("remember that I like coffee".toList)) ∧
    (process_memory_request none 0 [] ("remember that I like coffee".toList)).sends =
      [UpEffect.sendText (save_banner ++ save_fail_message) true] ∧
    frame_effects none 0 []
        { textField := some ("remember that I like coffee".toList),
          dataField := none, mimeField := none } =
      ([UpEffect.sendText (save_banner ++ save_fail_message) true], []) :=
  c9_failed_save_still_banners 0 [] ("remember that I like coffee".toList) (by decide)

/-- C4 amended: a frame that parses as JSON but carries neither the text
shape nor the complete media shape is dropped without any effect and the
loop continues — the connection's remaining traffic is processed exactly as
if the frame had never arrived. -/
theorem c4_amended_neither_shape_dropped (outcome : Option PyStr) (now : Nat)
    (sid : PyStr) (j : JsonObj) (rest : List ClientMsg)
    (h1 : j.textField = none) (h2 : j.dataField = none ∨ j.mimeField = none) :
    frame_effects outcome now sid j = ([], []) ∧
    receive_from_client outcome now sid (ClientMsg.json j :: rest) =
      receive_from_client outcome now sid rest := by
  have hfe : frame_effects outcome now sid j = ([], []) := by
    rcases h2 with h2 | h2
    · cases hm : j.mimeField <;> simp [frame_effects, h1, h2, hm]
    · cases hd : j.dataField <;> simp [frame_effects, h1, h2, hd]
  refine ⟨hfe, ?_⟩
  rcases hr : receive_from_client outcome now sid rest with ⟨a, b, c⟩
  simp [receive_from_client, hfe, hr]

/-- C4 amended witness: an empty JSON object frame is dropped and the next
valid frame still processed. -/
theorem c4_amended_witness :
    frame_effects none 0 []
        { textField := none, dataField := none, mimeField := none } = ([], []) ∧
    receive_from_client none 0 []
        (ClientMsg.json { textField := none, dataField := none, mimeField := none } ::
          [ClientMsg.json c4_valid_frame]) =
      receive_from_client none 0 [] [ClientMsg.json c4_valid_frame] :=
  c4_amended_neither_shape_dropped none 0 []
    { textField := none, dataField := none, mimeField := none }
    [ClientMsg.json c4_valid_frame] rfl (Or.inl rfl)

/-- Relation between the split-based and the index-based view of a first
occurrence: Python's `s.split(kw, 1)[1]` is the suffix of `s` after the
first occurrence index of `kw`. -/
theorem afterFirst_eq_idxOfSub (kw : PyStr) :
    ∀ s : PyStr, afterFirst kw s = (idxOfSub kw s).map (fun i => s.drop (i + kw.length)) := by
  intro s
  induction s with
  | nil => by_cases hk : kw.isEmpty <;> simp [afterFirst, idxOfSub, hk]
  | cons c rest ih =>
    by_cases hp : kw.isPrefixOf (c :: rest)
    · simp [afterFirst, idxOfSub, hp]
    · cases hidx : idxOfSub kw rest with
      | none =>
        rw [hidx] at ih
        simp [afterFirst, idxOfSub, hp, hidx, ih]
      | some i =>
        rw [hidx] at ih
        have hdrop : (c :: rest).drop (i + 1 + kw.length) = rest.drop (i + kw.length) := by
          rw [show i + 1 + kw.length = (i + kw.length) + 1 from by omega,
            List.drop_succ_cons]
        simp [afterFirst, idxOfSub, hp, hidx, ih, hdrop]

/-- C2 amended: for every text containing a trigger case-insensitively, the
code reports a memory intent, and the payload follows `classify_amended`:
the original text is split at the first case-sensitive occurrence of the
lowercase trigger (falling back to the whole untrimmed text on a case
mismatch), trimmed, and the connector prefixes "that", "this", "to" are each
stripped at most once, sequentially, by character count. -/
theorem c2_amended_extraction (outcome : Option PyStr) (now : Nat)
    (sid text : PyStr)
    (h : memory_keywords.any (fun kw => containsSub (lowerStr text) kw) = true) :
    (process_memory_request outcome now sid text).isMemory = true ∧
    (classify_amended text).1 = true ∧
    (process_memory_request outcome now sid text).payload = (classify_amended text).2 := by
  obtain ⟨kw, hmem, hkw⟩ := List.any_eq_true.mp h
  obtain ⟨kw2, hfind⟩ := Option.isSome_iff_exists.mp
    (List.find?_isSome.mpr ⟨kw, hmem, hkw⟩)
  have hext := afterFirst_eq_idxOfSub kw2 text
  refine ⟨by simp [process_memory_request, h], ?_, ?_⟩ <;>
    cases hidx : idxOfSub kw2 text <;>
      rw [hidx] at hext <;>
        simp [process_memory_request, h, extract_memory_text, classify_amended,
          hfind, hext, hidx]

/-- C2 amended witness: "please remember to buy milk" is classified as a
memory intent with the payload the amended contract prescribes. -/
theorem c2_amended_witness :
    (process_memory_request none 0 [] ("please remember to buy milk".toList)).isMemory = true ∧
    (classify_amended ("please remember to buy milk".toList)).1 = true ∧
    (process_memory_request none 0 [] ("please remember to buy milk".toList)).payload =
      (classify_amended ("please remember to buy milk".toList)).2 :=
  c2_amended_extraction none 0 [] ("please remember to buy milk".toList) (by decide)

/-- Part frames are only audio or text: no part ever contributes an
interruption frame. -/
theorem interrupted_notin_part_frames (p : ResponsePart) :
    OutFrame.interruptedFrame ∉ part_frames p := by
  obtain ⟨ib, tx⟩ := p
  rcases ib with _ | ⟨_ | bs⟩ <;> rcases tx with _ | t <;>
    simp [part_frames]

/-- No response's part-frame block holds an interruption frame. -/
theorem interrupted_notin_response_part_frames (r : UpResponse) :
    OutFrame.interruptedFrame ∉ response_part_frames r := by
  rw [response_part_frames, List.mem_flatten]
  rintro ⟨s, hs, hmem⟩
  obtain ⟨p, _, rfl⟩ := List.mem_map.mp hs
  exact interrupted_notin_part_frames p hmem

/-- C5 amended: the relay emits one interruption frame per flagged response,
not one per turn; when the turn's interruption is signalled on its final
response only (the shape the original claim describes), exactly one
`{interrupted: true}` frame is emitted for the turn, placed after every
audio/text part frame, and the part frames appear in part order. -/
theorem c5_amended_single_final_interrupt (rs : List UpResponse) (r : UpResponse)
    (h1 : responseInterrupted r = true)
    (h2 : ∀ x ∈ rs, responseInterrupted x = false) :
    turn_frames (rs ++ [r]) =
      turn_part_frames (rs ++ [r]) ++ [OutFrame.interruptedFrame] ∧
    List.count OutFrame.interruptedFrame (turn_frames (rs ++ [r])) = 1 := by
  have hmap : rs.map response_frames = rs.map response_part_frames :=
    List.map_congr_left (fun x hx => by simp [response_frames, h2 x hx])
  have hturn : turn_frames (rs ++ [r]) =
      turn_part_frames (rs ++ [r]) ++ [OutFrame.interruptedFrame] := by
    simp [turn_frames, turn_part_frames, hmap, response_frames, h1,
      List.flatten_append, List.append_assoc]
  have hnot : OutFrame.interruptedFrame ∉ turn_part_frames (rs ++ [r]) := by
    rw [turn_part_frames, List.mem_flatten]
    rintro ⟨s, hs, hmem⟩
    obtain ⟨x, _, rfl⟩ := List.mem_map.mp hs
    exact interrupted_notin_response_part_frames x hmem
  refine ⟨hturn, ?_⟩
  rw [hturn, List.count_append, List.count_eq_zero.mpr hnot]
  simp

/-- C5 amended witness: one text-part response followed by one interrupted
response yields the part frames and then a single interruption frame. -/
theorem c5_amended_witness :
    turn_frames ([textPartResponse] ++ [interruptResponse]) =
      turn_part_frames ([textPartResponse] ++ [interruptResponse]) ++
        [OutFrame.interruptedFrame] ∧
    List.count OutFrame.interruptedFrame
      (turn_frames ([textPartResponse] ++ [interruptResponse])) = 1 :=
  c5_amended_single_final_interrupt [textPartResponse] interruptResponse
    (by decide) (by decide)

/-- C6: the builder returns the base instruction unchanged when no memories
were loaded; otherwise the base instruction is a strict prefix of the
result, which appends the header line and one bullet per memory of the first
five loaded — and those five are the session's most recent records,
newest-first, even when ten were loaded. -/
theorem c6_context_builder (loadOk : Bool) (store : List MemoryDoc) (sid : PyStr) :
    (load_memories loadOk store sid 10 = [] →
      session_config_instruction loadOk store sid = default_system_instruction) ∧
    (load_memories loadOk store sid 10 ≠ [] →
      (∃ rest, rest ≠ [] ∧
        session_config_instruction loadOk store sid =
          default_system_instruction ++ rest) ∧
      session_config_instruction loadOk store sid =
        default_system_instruction ++ "\n\n".toList ++
          "Here are things I should remember:\n".toList ++
          joinNL (((load_memories loadOk store sid 10).take 5).map memory_bullet) ∧
      List.Sorted moreRecent ((load_memories loadOk store sid 10).take 5) ∧
      ∀ x ∈ (load_memories loadOk store sid 10).take 5,
        ∀ y ∈ sessionRecords store sid,
          y ∈ (load_memories loadOk store sid 10).take 5 ∨ moreRecent x y) := by
  cases loadOk with
  | false => exact ⟨fun _ => rfl, fun hne => absurd rfl hne⟩
  | true =>
    have hload : load_memories true store sid 10 =
        (newestFirst (sessionRecords store sid)).take 10 := rfl
    constructor
    · intro hnil
      simp [session_config_instruction, augmented_instruction, hnil]
    · intro hne
      have hemp : (load_memories true store sid 10).isEmpty = false := by
        cases hmm : load_memories true store sid 10 with
        | nil => exact absurd hmm hne
        | cons a l => simp
      have hcfg : session_config_instruction true store sid =
          default_system_instruction ++ "\n\n".toList ++
            "Here are things I should remember:\n".toList ++
            joinNL (((load_memories true store sid 10).take 5).map memory_bullet) := by
        rw [session_config_instruction, augmented_instruction,
          if_neg (by simp [hemp]), memory_context_block]
        simp [List.append_assoc]
      have hsorted : List.Sorted moreRecent (newestFirst (sessionRecords store sid)) :=
        List.sorted_insertionSort moreRecent _
      have htake : (load_memories true store sid 10).take 5 =
          (newestFirst (sessionRecords store sid)).take 5 := by
        rw [hload, List.take_take]
        norm_num
      refine ⟨⟨"\n\n".toList ++ "Here are things I should remember:\n".toList ++
          joinNL (((load_memories true store sid 10).take 5).map memory_bullet),
          ?_, ?_⟩, hcfg, ?_, ?_⟩
      · have h2 : ("\n\n".toList : PyStr) = '\n' :: '\n' :: [] := rfl
        simp [h2]
      · rw [hcfg]
        simp [List.append_assoc]
      · rw [htake]
        exact List.Pairwise.sublist (List.take_sublist 5 _) hsorted
      · intro x hx y hy
        have hperm : List.Perm (newestFirst (sessionRecords store sid))
            (sessionRecords store sid) := List.perm_insertionSort moreRecent _
        have hyL : y ∈ newestFirst (sessionRecords store sid) := hperm.mem_iff.mpr hy
        rw [← List.take_append_drop 5 (newestFirst (sessionRecords store sid))] at hyL
        rcases List.mem_append.mp hyL with hy5 | hyD
        · left
          rw [htake]
          exact hy5
        · right
          have hpw := hsorted
          rw [← List.take_append_drop 5 (newestFirst (sessionRecords store sid))] at hpw
          exact (List.pairwise_append.mp hpw).2.2 x (htake ▸ hx) y hyD

end GeminiLive
